import Mathlib

/-!
Verification of the QtRemoteObjects replication core against its
natural-language specification.

The development shallowly embeds the relevant parts of the repository:

* `qremoteobjectregistry.cpp` — the registry replica
  (`addSource`, `removeSource`, `pushToRegistryIfNeeded`,
  `registerMetatypes`), modelled as explicit state passing over
  `RegistryState`;
* `tools/repc/repcodegenerator.cpp` — the structural class signature
  (`classSignature`, `typeData`, `enumSignature`, `functionsData`)
  over Latin-1 byte lists, together with a faithful SHA-1, and the
  semantics of the accessors of the generated `SourceApiMap`
  (`propertyIndexFromSignal`, `sourceEnumIndex`, ...);
* `qremoteobjectsource.h` — the three `copyStoredProperties`
  overloads, with gadgets as index-to-value maps, data streams as
  FIFO lists and null pointers as `Option.none`.
-/

namespace QtRO

/-! ### Registry data model (qremoteobjectregistry.cpp)

`QRemoteObjectSourceLocations` is `QHash<QString, QUrl>`; we model it as
an association list from names to endpoint urls (the hash has unique
keys; insertion only ever happens after a negative `contains` check, so
an append is faithful).  `send(...)` calls are modelled by appending a
`Packet` to an outgoing list; `qCWarning` by a warning counter. -/

/-- Replica state machine, per the spec (section 4.3): the registry code
under test only ever compares against `Valid`. -/
inductive ReplicaState where
  | uninitialized
  | connecting
  | valid
  | suspect
  | signatureMismatch
deriving DecidableEq, Repr

/-- A `QRemoteObjectSourceLocation`: `QPair<QString, QUrl>`. -/
abbrev SourceLocation := String × String

/-- `QRemoteObjectSourceLocations`: `QHash<QString, QUrl>` as an
association list. -/
abbrev SourceLocations := List SourceLocation

/-- `QHash::contains` on the association-list model. -/
def containsKey (m : SourceLocations) (k : String) : Bool :=
  m.any (fun e => e.1 == k)

/-- `QHash::value` (first match) on the association-list model. -/
def lookupKey (m : SourceLocations) (k : String) : Option String :=
  (m.find? (fun e => e.1 == k)).map (·.2)

/-- `QHash::remove(k)` on the association-list model. -/
def eraseKey (m : SourceLocations) (k : String) : SourceLocations :=
  m.filter (fun e => ¬ e.1 == k)

/-- An outgoing `send(QMetaObject::InvokeMetaMethod, index, args)` call
made by the registry replica: either the `addSource` or the
`removeSource` remote slot, with its `QRemoteObjectSourceLocation`
argument. -/
inductive Packet where
  | addSourcePacket (entry : SourceLocation)
  | removeSourcePacket (entry : SourceLocation)
deriving DecidableEq, Repr

/-- State of one `QRemoteObjectRegistry` replica:
`d->hostedSources` (the node-local pending table), the replica `state()`,
the replica-side property 0 `sourceLocations()` (the remote table), the
outgoing `send` calls, and the number of `qCWarning` messages. -/
structure RegistryState where
  hostedSources : SourceLocations
  replicaState : ReplicaState
  sourceLocations : SourceLocations
  sent : List Packet
  warnings : Nat
deriving DecidableEq, Repr

/-- `QRemoteObjectRegistry::addSource(entry)`:
reject (warning only) if `hostedSources` already contains the name;
otherwise insert; stop if the replica is not `Valid`; reject (warning
only) if the remote `sourceLocations()` table contains the name;
otherwise send the add-notification. -/
def addSource (entry : SourceLocation) (st : RegistryState) : RegistryState :=
  if containsKey st.hostedSources entry.1 then
    { st with warnings := st.warnings + 1 }
  else
    let st := { st with hostedSources := st.hostedSources ++ [entry] }
    if st.replicaState ≠ ReplicaState.valid then
      st
    else if containsKey st.sourceLocations entry.1 then
      { st with warnings := st.warnings + 1 }
    else
      { st with sent := st.sent ++ [Packet.addSourcePacket entry] }

/-- `QRemoteObjectRegistry::removeSource(entry)`:
do nothing if `hostedSources` does not contain the name; otherwise
remove it; send the remove-notification only when the replica is
`Valid`. -/
def removeSource (entry : SourceLocation) (st : RegistryState) : RegistryState :=
  if ¬ containsKey st.hostedSources entry.1 then
    st
  else
    let st := { st with hostedSources := eraseKey st.hostedSources entry.1 }
    if st.replicaState ≠ ReplicaState.valid then
      st
    else
      { st with sent := st.sent ++ [Packet.removeSourcePacket entry] }

/-- The loop body of `pushToRegistryIfNeeded`: iterate over the hosted
sources in order; an entry whose name the remote table contains is
erased with a warning; otherwise the add-notification is sent and the
entry kept.  Returns (new hosted table, sent packets, warnings). -/
def pushLoop (sourceLocs : SourceLocations) :
    SourceLocations → SourceLocations × List Packet × Nat
  | [] => ([], [], 0)
  | e :: rest =>
    if containsKey sourceLocs e.1 then
      let (h, s, w) := pushLoop sourceLocs rest
      (h, s, w + 1)
    else
      let (h, s, w) := pushLoop sourceLocs rest
      (e :: h, Packet.addSourcePacket e :: s, w)

/-- `QRemoteObjectRegistry::pushToRegistryIfNeeded()`: return unless the
replica is `Valid`; return if `hostedSources` is empty; otherwise run
the reconciliation loop over `hostedSources` against a snapshot of
`sourceLocations()`. -/
def pushToRegistryIfNeeded (st : RegistryState) : RegistryState :=
  if st.replicaState ≠ ReplicaState.valid then
    st
  else if st.hostedSources = [] then
    st
  else
    let (h, s, w) := pushLoop st.sourceLocations st.hostedSources
    { st with hostedSources := h, sent := st.sent ++ s,
              warnings := st.warnings + w }

/-- The constructor wiring
`connect(this, stateChanged, this, pushToRegistryIfNeeded)`: on every
state transition the replica state is updated and
`pushToRegistryIfNeeded` runs (it returns immediately unless the new
state is `Valid`). -/
def stateChangedTransition (s : ReplicaState) (st : RegistryState) :
    RegistryState :=
  pushToRegistryIfNeeded { st with replicaState := s }

/-- Process-wide state touched by `registerMetatypes`: the
function-local `static bool initialized` latch and the list of
meta-type names registered with `qRegisterMetaType`. -/
structure MetaTypeProcess where
  initialized : Bool
  registered : List String
deriving DecidableEq, Repr

/-- `QRemoteObjectRegistry::registerMetatypes()`: return if the static
latch is set; otherwise set it and register the two meta-types. -/
def registerMetatypes (p : MetaTypeProcess) : MetaTypeProcess :=
  if p.initialized then p
  else
    { initialized := true,
      registered := p.registered
        ++ ["QRemoteObjectSourceLocation", "QRemoteObjectSourceLocations"] }

/-! ### repc code generator (tools/repc/repcodegenerator.cpp)

Strings (`QString`) are modelled as lists of UTF-16 code units and byte
arrays (`QByteArray`) as lists of byte values, both `List Nat`.  The
AST types mirror `repparser.h` as used by `repcodegenerator.cpp`. -/

/-- `ASTEnumParam` of repparser: an enumerator name and its value. -/
structure ASTEnumParam where
  name : List Nat
  value : Int
deriving DecidableEq, Repr

/-- `ASTEnum` of repparser, in the parts read by the generator. -/
structure ASTEnum where
  name : List Nat
  params : List ASTEnumParam
deriving DecidableEq, Repr

/-- `ASTProperty::Modifier` of repparser.  Modelled from the spec:
`repparser.h` is not among the sources; the declaration order below
follows the generator's uses (`Constant`, `ReadOnly`, `ReadPush`,
`ReadWrite`, `SourceOnlySetter`); the signature only uses the raw bytes
of the value, so only distinctness of the values matters. -/
inductive Modifier where
  | constant
  | readOnly
  | readPush
  | readWrite
  | sourceOnlySetter
deriving DecidableEq, Repr

/-- The numeric value of a `Modifier`, per declaration order. -/
def modifierValue : Modifier → Nat
  | Modifier.constant => 0
  | Modifier.readOnly => 1
  | Modifier.readPush => 2
  | Modifier.readWrite => 3
  | Modifier.sourceOnlySetter => 4

/-- `ASTProperty` of repparser, in the parts read by the generator. -/
structure ASTProperty where
  name : List Nat
  type : List Nat
  modifier : Modifier
  isPointer : Bool
deriving DecidableEq, Repr

/-- `ASTDeclaration` of repparser: a function parameter.
`variableType` carries the numeric value of the
`ASTDeclaration::VariableType` enum (hashed as raw bytes). -/
structure ASTDeclaration where
  name : List Nat
  type : List Nat
  variableType : Nat
deriving DecidableEq, Repr

/-- `ASTFunction` of repparser: a signal or slot. -/
structure ASTFunction where
  name : List Nat
  returnType : List Nat
  params : List ASTDeclaration
deriving DecidableEq, Repr

/-- `ASTClass` of repparser, in the parts read by the generator.
`modelMetadata` and `subClassPropertyIndices` are carried opaquely
(only their presence matters: `classSignature` must not depend on
them). -/
structure ASTClass where
  name : List Nat
  enums : List ASTEnum
  properties : List ASTProperty
  signalsList : List ASTFunction
  slotsList : List ASTFunction
  modelMetadata : List Nat
  subClassPropertyIndices : List Nat
deriving DecidableEq, Repr

/-- `QString::toLatin1`: code units above 255 become `?` (0x3F). -/
def toLatin1 (s : List Nat) : List Nat :=
  s.map (fun c => if c < 256 then c else 63)

/-- The `QHash<QString, QByteArray>` of special types, as an
association list (first match wins). -/
abbrev SpecialTypes := List (List Nat × List Nat)

/-- `QHash::find` on the special-types table. -/
def findSpecial (m : SpecialTypes) (k : List Nat) : Option (List Nat) :=
  (m.find? (fun e => e.1 == k)).map (·.2)

/-- Does the string start with `"::"` (two colons, code 58)? -/
def startsWithCC : List Nat → Bool
  | 58 :: 58 :: _ => true
  | _ => false

/-- `QString::lastIndexOf(QLatin1String("::"))`: the largest start
position of an occurrence of `"::"`, if any. -/
def lastIndexOfCC (s : List Nat) : Option Nat :=
  (List.range s.length).reverse.find? (fun p => startsWithCC (s.drop p))

/-- `typeData(type, specialTypes)` with explicit recursion fuel (each
recursive call strips a `"::"`-qualified prefix, shortening the string
by at least three code units, so `type.length` units of fuel always
suffice; the fuel-exhausted branch only ever sees the empty string,
where no recursion happens). -/
def typeDataFuel (specialTypes : SpecialTypes) : Nat → List Nat → List Nat
  | 0, type =>
    match findSpecial specialTypes type with
    | some v => v
    | none => toLatin1 type
  | fuel + 1, type =>
    match findSpecial specialTypes type with
    | some v => v
    | none =>
      match lastIndexOfCC type with
      | some pos => if 0 < pos then typeDataFuel specialTypes fuel (type.drop (pos + 2)) else toLatin1 type
      | none => toLatin1 type

/-- `typeData(type, specialTypes)` of repcodegenerator.cpp: a special
type maps to its recorded signature; otherwise a trailing
`"::"`-qualified name is resolved recursively; otherwise the Latin-1
bytes of the type name. -/
def typeData (specialTypes : SpecialTypes) (type : List Nat) : List Nat :=
  typeDataFuel specialTypes type.length type

/-- `QByteArray::number` for the `int` value of an enum parameter. -/
def byteArrayNumber (v : Int) : List Nat :=
  if v < 0 then 45 :: (Nat.toDigits 10 v.natAbs).map Char.toNat
  else (Nat.toDigits 10 v.toNat).map Char.toNat

/-- `enumSignature(e)`: the enum name followed by each parameter's name
and decimal value. -/
def enumSignature (e : ASTEnum) : List Nat :=
  toLatin1 e.name ++
    (e.params.map (fun p => toLatin1 p.name ++ byteArrayNumber p.value)).flatten

/-- The four little-endian bytes of a 32-bit `int` value, as written by
`addData(reinterpret_cast<const char *>(&v), sizeof(v))`. -/
def int32le (v : Nat) : List Nat :=
  [v % 256, v / 256 % 256, v / 65536 % 256, v / 16777216 % 256]

/-- The bytes contributed by one function parameter: its name, its type
data and the raw bytes of its `variableType`. -/
def declData (st : SpecialTypes) (d : ASTDeclaration) : List Nat :=
  toLatin1 d.name ++ (typeData st d.type ++ int32le d.variableType)

/-- The bytes contributed by one function: its name, its parameters'
data and its return type's data. -/
def functionData (st : SpecialTypes) (f : ASTFunction) : List Nat :=
  toLatin1 f.name ++
    ((f.params.map (declData st)).flatten ++ typeData st f.returnType)

/-- `functionsData(functions, specialTypes)` of repcodegenerator.cpp. -/
def functionsData (st : SpecialTypes) (fns : List ASTFunction) : List Nat :=
  (fns.map (functionData st)).flatten

/-- The bytes contributed by one property: its name, its type data and
the raw bytes of its modifier. -/
def propData (st : SpecialTypes) (p : ASTProperty) : List Nat :=
  toLatin1 p.name ++ (typeData st p.type ++ int32le (modifierValue p.modifier))

/-- The bytes contributed by the property loop of `classSignature`. -/
def propsData (st : SpecialTypes) (ps : List ASTProperty) : List Nat :=
  (ps.map (propData st)).flatten

/-- The `localTypes` table of `classSignature`: the copy of
`m_globalEnumsPODs` with the class's own enums inserted (an insert
overwrites, so a local enum shadows a global entry and a later local
enum shadows an earlier one of the same name). -/
def localTypesFor (tbl : SpecialTypes) (enums : List ASTEnum) : SpecialTypes :=
  enums.reverse.map (fun e => (e.name, enumSignature e)) ++ tbl

/-- The full byte stream fed to the SHA-1 accumulator by
`RepCodeGenerator::classSignature`: class name, then per-property name,
type data and modifier bytes, then the signals' and the slots'
function data. -/
def classSignatureData (tbl : SpecialTypes) (ac : ASTClass) : List Nat :=
  toLatin1 ac.name ++
    (propsData (localTypesFor tbl ac.enums) ac.properties ++
      (functionsData (localTypesFor tbl ac.enums) ac.signalsList ++
        functionsData (localTypesFor tbl ac.enums) ac.slotsList))

/-! SHA-1 (`QCryptographicHash::Sha1`), over byte lists, with 32-bit
words as `Nat` reduced `% 2^32`. -/

/-- Left rotation of a 32-bit word. -/
def rotl32 (s x : Nat) : Nat :=
  ((x <<< s) % 4294967296) ||| ((x % 4294967296) >>> (32 - s))

/-- The big-endian 8-byte encoding of the 64-bit message bit length. -/
def be64 (n : Nat) : List Nat :=
  [n / 72057594037927936 % 256, n / 281474976710656 % 256,
   n / 1099511627776 % 256, n / 4294967296 % 256,
   n / 16777216 % 256, n / 65536 % 256, n / 256 % 256, n % 256]

/-- The big-endian 4-byte encoding of a 32-bit word. -/
def be32 (n : Nat) : List Nat :=
  [n / 16777216 % 256, n / 65536 % 256, n / 256 % 256, n % 256]

/-- SHA-1 padding: `0x80`, zeros to 56 mod 64, then the bit length. -/
def sha1pad (msg : List Nat) : List Nat :=
  let zeros := (119 - msg.length % 64) % 64
  msg ++ [128] ++ List.replicate zeros 0 ++ be64 (msg.length * 8)

/-- Split a byte list into 64-byte blocks. -/
def chunks64 : List Nat → List (List Nat)
  | [] => []
  | b :: rest => (b :: rest).take 64 :: chunks64 ((b :: rest).drop 64)
termination_by l => l.length
decreasing_by simp [List.length_drop]; omega

/-- Extend the 16-word schedule by `k` further words. -/
def expandW : Nat → List Nat → List Nat
  | 0, w => w
  | k + 1, w =>
    let n := w.length
    expandW k (w ++ [rotl32 1 ((w.getD (n - 3) 0) ^^^ (w.getD (n - 8) 0)
      ^^^ (w.getD (n - 14) 0) ^^^ (w.getD (n - 16) 0))])

/-- The 80-word message schedule of one 64-byte block. -/
def sha1w (block : List Nat) : List Nat :=
  expandW 64 ((List.range 16).map (fun i =>
    block.getD (4 * i) 0 * 16777216 + block.getD (4 * i + 1) 0 * 65536
      + block.getD (4 * i + 2) 0 * 256 + block.getD (4 * i + 3) 0))

/-- The SHA-1 round function. -/
def sha1f (i b c d : Nat) : Nat :=
  if i < 20 then (b &&& c) ||| ((b ^^^ 4294967295) &&& d)
  else if i < 40 then b ^^^ c ^^^ d
  else if i < 60 then (b &&& c) ||| (b &&& d) ||| (c &&& d)
  else b ^^^ c ^^^ d

/-- The SHA-1 round constants. -/
def sha1k (i : Nat) : Nat :=
  if i < 20 then 1518500249
  else if i < 40 then 1859775393
  else if i < 60 then 2400959708
  else 3395469782

/-- One SHA-1 round on the five-word working state. -/
def sha1round (w : List Nat) (st : Nat × Nat × Nat × Nat × Nat) (i : Nat) :
    Nat × Nat × Nat × Nat × Nat :=
  let (a, b, c, d, e) := st
  ((rotl32 5 a + sha1f i b c d + e + sha1k i + w.getD i 0) % 4294967296,
   a, rotl32 30 b, c, d)

/-- The five-word SHA-1 chaining state. -/
structure Sha1State where
  h0 : Nat
  h1 : Nat
  h2 : Nat
  h3 : Nat
  h4 : Nat
deriving DecidableEq, Repr

/-- Compress one 64-byte block into the chaining state. -/
def sha1block (h : Sha1State) (block : List Nat) : Sha1State :=
  let w := sha1w block
  let (a, b, c, d, e) :=
    (List.range 80).foldl (sha1round w) (h.h0, h.h1, h.h2, h.h3, h.h4)
  ⟨(h.h0 + a) % 4294967296, (h.h1 + b) % 4294967296,
   (h.h2 + c) % 4294967296, (h.h3 + d) % 4294967296,
   (h.h4 + e) % 4294967296⟩

/-- The SHA-1 digest (20 bytes) of a byte list. -/
def sha1 (msg : List Nat) : List Nat :=
  let fin := (chunks64 (sha1pad msg)).foldl sha1block
    ⟨1732584193, 4023233417, 2562383102, 271733878, 3285377520⟩
  be32 fin.h0 ++ be32 fin.h1 ++ be32 fin.h2 ++ be32 fin.h3 ++ be32 fin.h4

/-- One lowercase hex digit. -/
def hexDigit (n : Nat) : Nat := if n < 10 then 48 + n else 87 + n

/-- `QByteArray::toHex()`: two lowercase hex characters per byte. -/
def toHexBytes (bs : List Nat) : List Nat :=
  (bs.map (fun b => [hexDigit (b / 16), hexDigit (b % 16)])).flatten

/-- `RepCodeGenerator::classSignature(ac)`: the hex-encoded SHA-1 of
the class's signature byte stream, given the generator's
`m_globalEnumsPODs` table. -/
def classSignature (tbl : SpecialTypes) (ac : ASTClass) : List Nat :=
  toHexBytes (sha1 (classSignatureData tbl ac))

/-! Semantics of the accessors of the `SourceApiMap` emitted by
`RepCodeGenerator::generateSourceAPI`.  The constructor fills the
`m_enums`/`m_properties`/`m_signals`/`m_methods` tables with counts at
index 0 and Qt meta-object indices (runtime values of
`qtro_property_index` and friends) after; those runtime values are
abstracted as functions in `GenTables`. -/

/-- Number of local enums of the class (`m_enums[0]`). -/
def enumCount (ac : ASTClass) : Nat := ac.enums.length

/-- Number of properties of the class (`m_properties[0]`). -/
def propCount (ac : ASTClass) : Nat := ac.properties.length

/-- The 0-based declared indices of the properties that are not
`Constant` — exactly the properties given an `onChange` signal by the
generator's property loop, in declared order. -/
def changedIndices (ac : ASTClass) : List Nat :=
  (ac.properties.enum.filter
    (fun ip => ¬ ip.2.modifier = Modifier.constant)).map (·.1)

/-- The generator's `propertyChangeIndex` list: for each non-constant
property, its declared index plus one (`m_properties[0]` is the count,
so the table index is one higher). -/
def propertyChangeIndex (ac : ASTClass) : List Nat :=
  (changedIndices ac).map (· + 1)

/-- Number of entries of `m_signals` after index 0: the change signals
followed by the declared signals. -/
def signalTotal (ac : ASTClass) : Nat :=
  (changedIndices ac).length + ac.signalsList.length

/-- The `ReadPush` properties, which contribute `push` methods. -/
def pushCount (ac : ASTClass) : Nat :=
  (ac.properties.filter (fun p => p.modifier = Modifier.readPush)).length

/-- Number of entries of `m_methods` after index 0: push methods then
slots. -/
def methodTotal (ac : ASTClass) : Nat :=
  pushCount ac + ac.slotsList.length

/-- The runtime-filled contents of the generated tables:
`enumIdx i` models `m_enums[i+1]`, `propIdx i` models
`m_properties[i+1]`, and so on; `sigArgCount`/`sigArgTypes` and
`methArgCount`/`methArgTypes` model the argument-count and
argument-type side tables. -/
structure GenTables where
  enumIdx : Nat → Int
  propIdx : Nat → Int
  sigIdx : Nat → Int
  methIdx : Nat → Int
  sigArgCount : Nat → Int
  sigArgTypes : Nat → Nat → Int
  methArgCount : Nat → Int
  methArgTypes : Nat → Nat → Int

/-- The `m_properties` table: the property count at index 0, the
meta-object property indices after. -/
def mPropertiesTable (ac : ASTClass) (t : GenTables) : List Int :=
  (propCount ac : Int) :: (List.range (propCount ac)).map t.propIdx

/-- The generated `sourceEnumIndex(int)`. -/
def genSourceEnumIndex (ac : ASTClass) (t : GenTables) (index : Int) : Int :=
  if index < 0 ∨ (enumCount ac : Int) ≤ index then -1 else t.enumIdx index.toNat

/-- The generated `sourcePropertyIndex(int)`. -/
def genSourcePropertyIndex (ac : ASTClass) (t : GenTables) (index : Int) : Int :=
  if index < 0 ∨ (propCount ac : Int) ≤ index then -1 else t.propIdx index.toNat

/-- The generated `sourceSignalIndex(int)`. -/
def genSourceSignalIndex (ac : ASTClass) (t : GenTables) (index : Int) : Int :=
  if index < 0 ∨ (signalTotal ac : Int) ≤ index then -1 else t.sigIdx index.toNat

/-- The generated `sourceMethodIndex(int)`. -/
def genSourceMethodIndex (ac : ASTClass) (t : GenTables) (index : Int) : Int :=
  if index < 0 ∨ (methodTotal ac : Int) ≤ index then -1 else t.methIdx index.toNat

/-- The generated `signalParameterCount(int)` (the generator emits an
unconditional `-1` body when the class has no signals at all). -/
def genSignalParameterCount (ac : ASTClass) (t : GenTables) (index : Int) : Int :=
  if signalTotal ac = 0 then -1
  else if index < 0 ∨ (signalTotal ac : Int) ≤ index then -1
  else t.sigArgCount index.toNat

/-- The generated `signalParameterType(int, int)`. -/
def genSignalParameterType (ac : ASTClass) (t : GenTables)
    (sigIndex paramIndex : Int) : Int :=
  if signalTotal ac = 0 then -1
  else if sigIndex < 0 ∨ (signalTotal ac : Int) ≤ sigIndex ∨ paramIndex < 0
      ∨ t.sigArgCount sigIndex.toNat ≤ paramIndex then -1
  else t.sigArgTypes sigIndex.toNat paramIndex.toNat

/-- The generated `methodParameterCount(int)`. -/
def genMethodParameterCount (ac : ASTClass) (t : GenTables) (index : Int) : Int :=
  if methodTotal ac = 0 then -1
  else if index < 0 ∨ (methodTotal ac : Int) ≤ index then -1
  else t.methArgCount index.toNat

/-- The generated `methodParameterType(int, int)`. -/
def genMethodParameterType (ac : ASTClass) (t : GenTables)
    (methodIndex paramIndex : Int) : Int :=
  if methodTotal ac = 0 then -1
  else if methodIndex < 0 ∨ (methodTotal ac : Int) ≤ methodIndex ∨ paramIndex < 0
      ∨ t.methArgCount methodIndex.toNat ≤ paramIndex then -1
  else t.methArgTypes methodIndex.toNat paramIndex.toNat

/-- The generated `propertyIndexFromSignal(int)`: a `switch` with one
case per change signal returning `m_properties[propertyChangeIndex[i]]`,
and `-1` for every other index. -/
def genPropertyIndexFromSignal (ac : ASTClass) (t : GenTables) (index : Int) : Int :=
  let pci := propertyChangeIndex ac
  if 0 ≤ index ∧ index < (pci.length : Int) then
    (mPropertiesTable ac t).getD (pci.getD index.toNat 0) 0
  else -1

/-! ### `QtRemoteObjects::copyStoredProperties` (qremoteobjectsource.h)

A gadget (`void *` pointing at a POD instance) is modelled as a map
from property index to value, a possibly-null pointer as an `Option`,
and a `QDataStream` as the FIFO list of the variants it holds.  The
warning counter models the `qCWarning` emitted on a null pointer. -/

/-- A property value held in a `QVariant` (the closed set of typed
values the wire carries for a POD's stored properties). -/
inductive RValue where
  | invalid
  | intV (n : Int)
  | boolV (b : Bool)
  | stringV (s : List Nat)
deriving DecidableEq, Repr

/-- A gadget instance: its stored property values by property index. -/
def Gadget := Nat → RValue

/-- The part of a `QMetaObject` the copy functions read: the property
count and each property's meta type. -/
structure MetaObjectM where
  propertyCount : Nat
  metaTypeAt : Nat → Nat

/-- `QMetaProperty::readOnGadget`. -/
def readOnGadget (g : Gadget) (i : Nat) : RValue := g i

/-- `QMetaProperty::writeOnGadget`: update one property slot. -/
def writeOnGadget (g : Gadget) (i : Nat) (v : RValue) : Gadget :=
  fun j => if j = i then v else g j

/-- Modelled from the spec: `QRemoteObjectPackets::encodeVariant`, the
Wire Codec's encoder (its definition lives in `qremoteobjectpacket_p.h`,
which is not among the sources; the spec fixes only that encoding then
decoding any supported typed value yields an equal value). -/
def encodeVariant (v : RValue) : RValue := v

/-- Modelled from the spec: `QRemoteObjectPackets::decodeVariant`, the
Wire Codec's decoder for a value of the given meta type; inverse of
`encodeVariant` on supported typed values. -/
def decodeVariant (v : RValue) (_mt : Nat) : RValue := v

/-- `QDataStream >> QVariant`: pop the front of the stream (an
exhausted stream yields an invalid variant). -/
def dsRead : List RValue → RValue × List RValue
  | [] => (RValue.invalid, [])
  | v :: rest => (v, rest)

/-- The loop of the gadget-to-gadget overload: `k` iterations left,
next property index `i`. -/
def copyLoopGG (src : Gadget) : Nat → Nat → Gadget → Gadget
  | 0, _, dst => dst
  | k + 1, i, dst => copyLoopGG src k (i + 1) (writeOnGadget dst i (readOnGadget src i))

/-- `copyStoredProperties(mo, const void *src, void *dst)`: warn and
return on a null pointer, otherwise copy every property by index. -/
def copyStoredPropsGG (mo : MetaObjectM) (src dst : Option Gadget) :
    Option Gadget × Nat :=
  match src with
  | none => (dst, 1)
  | some s =>
    match dst with
    | none => (none, 1)
    | some d => (some (copyLoopGG s mo.propertyCount 0 d), 0)

/-- The loop of the gadget-to-stream overload: append the encoded
variant of each property in index order. -/
def writeLoopGS (src : Gadget) : Nat → Nat → List RValue → List RValue
  | 0, _, ds => ds
  | k + 1, i, ds => writeLoopGS src k (i + 1) (ds ++ [encodeVariant (readOnGadget src i)])

/-- `copyStoredProperties(mo, const void *src, QDataStream &dst)`:
warn and return on a null source, otherwise stream every property. -/
def copyStoredPropsGS (mo : MetaObjectM) (src : Option Gadget)
    (ds : List RValue) : List RValue × Nat :=
  match src with
  | none => (ds, 1)
  | some s => (writeLoopGS s mo.propertyCount 0 ds, 0)

/-- The loop of the stream-to-gadget overload: pop a variant and write
the decoded value into each property slot in index order. -/
def readLoopSG (mo : MetaObjectM) : Nat → Nat → List RValue → Gadget →
    List RValue × Gadget
  | 0, _, ds, dst => (ds, dst)
  | k + 1, i, ds, dst =>
    let (v, ds') := dsRead ds
    readLoopSG mo k (i + 1) ds' (writeOnGadget dst i (decodeVariant v (mo.metaTypeAt i)))

/-- `copyStoredProperties(mo, QDataStream &src, void *dst)`: warn and
return on a null destination, otherwise fill every property from the
stream. -/
def copyStoredPropsSG (mo : MetaObjectM) (ds : List RValue)
    (dst : Option Gadget) : List RValue × Option Gadget × Nat :=
  match dst with
  | none => (ds, none, 1)
  | some d =>
    let (ds', d') := readLoopSG mo mo.propertyCount 0 ds d
    (ds', some d', 0)

/-! ### Helper lemmas -/

theorem registerMetatypes_fix (p : MetaTypeProcess) :
    registerMetatypes (registerMetatypes p) = registerMetatypes p := by
  unfold registerMetatypes
  by_cases h : p.initialized <;> simp [h]

theorem pushLoop_eq (locs : SourceLocations) (hs : SourceLocations) :
    pushLoop locs hs =
      (hs.filter (fun e => !(containsKey locs e.1)),
       (hs.filter (fun e => !(containsKey locs e.1))).map Packet.addSourcePacket,
       (hs.filter (fun e => containsKey locs e.1)).length) := by
  induction hs with
  | nil => simp [pushLoop]
  | cons e rest ih =>
    by_cases h : containsKey locs e.1 <;>
      simp [pushLoop, h, ih]

theorem lookupKey_some_contains {m : SourceLocations} {k : String} {v : String}
    (h : lookupKey m k = some v) : containsKey m k = true := by
  unfold lookupKey at h
  unfold containsKey
  rcases hf : m.find? (fun e => e.1 == k) with _ | e
  · rw [hf] at h; simp at h
  · have := List.find?_some hf
    have hmem := List.mem_of_find?_eq_some hf
    exact List.any_eq_true.mpr ⟨e, hmem, this⟩

theorem writeLoopGS_out (g : Gadget) (k : Nat) : ∀ (i : Nat) (ds : List RValue),
    writeLoopGS g k i ds = ds ++ writeLoopGS g k i [] := by
  induction k with
  | zero => intro i ds; simp [writeLoopGS]
  | succ k ih =>
    intro i ds
    rw [writeLoopGS, writeLoopGS, ih (i + 1) (ds ++ [encodeVariant (readOnGadget g i)]),
      ih (i + 1) ([] ++ [encodeVariant (readOnGadget g i)])]
    simp [List.append_assoc]

theorem readLoop_writeLoop (mo : MetaObjectM) (g : Gadget) (k : Nat) :
    ∀ (i : Nat) (d : Gadget) (rest : List RValue),
      readLoopSG mo k i (writeLoopGS g k i [] ++ rest) d =
        (rest, fun j => if i ≤ j ∧ j < i + k then g j else d j) := by
  induction k with
  | zero =>
    intro i d rest
    rw [show (fun j => if i ≤ j ∧ j < i + 0 then g j else d j) = d from
      funext fun j => if_neg (by omega)]
    simp [writeLoopGS, readLoopSG]
  | succ k ih =>
    intro i d rest
    rw [writeLoopGS, writeLoopGS_out g k (i + 1)]
    simp only [List.nil_append, List.cons_append, List.append_assoc]
    rw [readLoopSG]
    simp only [dsRead]
    rw [ih (i + 1) _ rest]
    refine congrArg (Prod.mk rest) ?_
    funext j
    by_cases hj : j = i
    · subst hj
      rw [if_neg (by omega), if_pos (by omega)]
      simp [writeOnGadget, decodeVariant, encodeVariant, readOnGadget]
    · by_cases hin : i + 1 ≤ j ∧ j < i + 1 + k
      · rw [if_pos hin, if_pos (by omega)]
      · rw [if_neg hin, if_neg (by omega)]
        simp [writeOnGadget, hj]

theorem propsData_append (st : SpecialTypes) (l₁ l₂ : List ASTProperty) :
    propsData st (l₁ ++ l₂) = propsData st l₁ ++ propsData st l₂ := by
  simp [propsData]

theorem propsData_cons (st : SpecialTypes) (p : ASTProperty) (ps : List ASTProperty) :
    propsData st (p :: ps) = propData st p ++ propsData st ps := by
  simp [propsData]

theorem changedIndices_lt (ac : ASTClass) :
    ∀ x ∈ changedIndices ac, x < propCount ac := by
  intro x hx
  unfold changedIndices at hx
  rcases List.mem_map.mp hx with ⟨ip, hipf, rfl⟩
  have hmem := List.mem_of_mem_filter hipf
  have hget := List.mem_enum_iff_getElem?.mp hmem
  have hlt : ip.1 < ac.properties.length := by
    rcases List.getElem?_eq_some.mp hget with ⟨hl, _⟩
    exact hl
  exact hlt

/-! ### The claims -/

/-- C3 For every call to `QRemoteObjectRegistry::removeSource(location)`:
if the location's name is not in the node-local hosted-sources table,
the table is left unchanged and nothing is sent; otherwise the name is
deleted from the table, and a remove-notification is sent if and only
if the replica's state is Valid. -/
theorem removeSource_spec (entry : SourceLocation) (st : RegistryState) :
    (containsKey st.hostedSources entry.1 = false → removeSource entry st = st) ∧
    (containsKey st.hostedSources entry.1 = true →
      (removeSource entry st).hostedSources = eraseKey st.hostedSources entry.1 ∧
      (removeSource entry st).sent = st.sent ++
        (if st.replicaState = ReplicaState.valid
         then [Packet.removeSourcePacket entry] else []) ∧
      (removeSource entry st).sourceLocations = st.sourceLocations ∧
      (removeSource entry st).replicaState = st.replicaState ∧
      (removeSource entry st).warnings = st.warnings) := by
  unfold removeSource
  constructor
  · intro h; rw [if_pos]; simp [h]
  · intro h
    rw [if_neg (by simp [h])]
    by_cases hv : st.replicaState = ReplicaState.valid <;> simp [hv]

/-- C3 witness: removing a hosted name while Valid erases it and sends
the remove-notification. -/
theorem removeSource_spec_witness :
    (removeSource ("a", "u") ⟨[("a", "u")], ReplicaState.valid, [], [], 0⟩).hostedSources = [] ∧
    (removeSource ("a", "u") ⟨[("a", "u")], ReplicaState.valid, [], [], 0⟩).sent =
      [Packet.removeSourcePacket ("a", "u")] := by
  have h := (removeSource_spec ("a", "u")
    ⟨[("a", "u")], ReplicaState.valid, [], [], 0⟩).2 (by decide)
  refine ⟨?_, ?_⟩
  · rw [h.1]; decide
  · rw [h.2.1]; decide

/-- C9 Each overload of `QtRemoteObjects::copyStoredProperties`, when
given a null source or null destination pointer, performs no property
reads or writes (the destination object and the stream are left
unchanged) and only emits a warning; the copy loop runs only when the
required pointers are non-null. -/
theorem copyStoredProperties_null_safe (mo : MetaObjectM) (dst : Option Gadget)
    (g : Gadget) (ds : List RValue) :
    copyStoredPropsGG mo none dst = (dst, 1) ∧
    copyStoredPropsGG mo (some g) none = (none, 1) ∧
    copyStoredPropsGS mo none ds = (ds, 1) ∧
    copyStoredPropsSG mo ds none = (ds, none, 1) :=
  ⟨rfl, rfl, rfl, rfl⟩

/-- C10 `QRemoteObjectRegistry::registerMetatypes` is idempotent: any
number of further calls after the first leave the process state exactly
as one call does. -/
theorem registerMetatypes_idempotent (n : Nat) (p : MetaTypeProcess) :
    registerMetatypes^[n] (registerMetatypes p) = registerMetatypes p := by
  induction n with
  | zero => rfl
  | succ n ih => rw [Function.iterate_succ_apply, registerMetatypes_fix, ih]

/-- C7 Round-trip of stored properties through the stream codec:
writing all of `mo`'s properties of a source gadget to a stream with
`copyStoredProperties(mo, src, stream)` and reading them back with
`copyStoredProperties(mo, stream, dst)` consumes exactly the written
variants and leaves every stored property of `dst` equal to the
corresponding property of `src` (slots beyond the property count keep
their old values). -/
theorem copyStoredProperties_roundtrip (mo : MetaObjectM) (g d : Gadget) :
    copyStoredPropsSG mo (copyStoredPropsGS mo (some g) []).1 (some d) =
      ([], some (fun j => if j < mo.propertyCount then g j else d j), 0) := by
  have h := readLoop_writeLoop mo g mo.propertyCount 0 d []
  rw [List.append_nil] at h
  rw [show (fun j => if 0 ≤ j ∧ j < 0 + mo.propertyCount then g j else d j) =
    (fun j => if j < mo.propertyCount then g j else d j) from
    funext fun j => by rw [Nat.zero_add]; simp [Nat.zero_le]] at h
  show copyStoredPropsSG mo (writeLoopGS g mo.propertyCount 0 []) (some d) = _
  rw [show copyStoredPropsSG mo (writeLoopGS g mo.propertyCount 0 []) (some d)
      = ((readLoopSG mo mo.propertyCount 0 (writeLoopGS g mo.propertyCount 0 []) d).1,
         some (readLoopSG mo mo.propertyCount 0 (writeLoopGS g mo.propertyCount 0 []) d).2,
         0) from rfl]
  rw [h]

/-- C1 counterexample: the claim as stated is false on two points.
First state: the replica is Valid, the hosted table is empty, and the
remote table maps `"a"` to the very endpoint the call registers
(`"u"`), so the name is not "claimed by another endpoint"; the claim
mandates an add-notification, but `addSource` sends none and logs a
warning (it checks only containment, never the endpoint).  Second
state: the node itself already hosts `("a", "u")` and `addSource` with
the identical location records nothing — the claim's "the location is
recorded" and "rejected only if claimed by a *different* endpoint"
both fail. -/
theorem addSource_claim_counterexample :
    ((RegistryState.mk [] ReplicaState.valid [("a", "u")] [] 0).replicaState
        = ReplicaState.valid
      ∧ lookupKey (RegistryState.mk [] ReplicaState.valid [("a", "u")] [] 0).sourceLocations "a"
        = some "u"
      ∧ (addSource ("a", "u") (RegistryState.mk [] ReplicaState.valid [("a", "u")] [] 0)).sent = []
      ∧ (addSource ("a", "u") (RegistryState.mk [] ReplicaState.valid [("a", "u")] [] 0)).warnings = 1)
    ∧ ((addSource ("a", "u") (RegistryState.mk [("a", "u")] ReplicaState.valid [] [] 0)).hostedSources
        = [("a", "u")]
      ∧ (addSource ("a", "u") (RegistryState.mk [("a", "u")] ReplicaState.valid [] [] 0)).sent = []) := by
  decide

/-- C1 (amended) For every call to
`QRemoteObjectRegistry::addSource(location)`: the location is recorded
in the node-local hosted-sources table iff its name is not already in
that table (an existing entry is never overwritten, even by the same
endpoint); when recorded with the replica Valid, an add-notification is
sent iff the name is absent from the remote table — absence is judged
by name containment alone, regardless of which endpoint claims it; a
colliding name is silently rejected with only a log warning (no error
code) and never sent. -/
theorem addSource_spec (entry : SourceLocation) (st : RegistryState) :
    (containsKey st.hostedSources entry.1 = true →
      addSource entry st = { st with warnings := st.warnings + 1 }) ∧
    (containsKey st.hostedSources entry.1 = false →
      (addSource entry st).hostedSources = st.hostedSources ++ [entry] ∧
      (addSource entry st).sent = st.sent ++
        (if st.replicaState = ReplicaState.valid
            ∧ containsKey st.sourceLocations entry.1 = false
         then [Packet.addSourcePacket entry] else []) ∧
      (addSource entry st).warnings = st.warnings +
        (if st.replicaState = ReplicaState.valid
            ∧ containsKey st.sourceLocations entry.1 = true
         then 1 else 0) ∧
      (addSource entry st).sourceLocations = st.sourceLocations ∧
      (addSource entry st).replicaState = st.replicaState) := by
  unfold addSource
  constructor
  · intro h; rw [if_pos h]
  · intro h
    rw [if_neg (by simp [h])]
    by_cases hv : st.replicaState = ReplicaState.valid
    · by_cases hc : containsKey st.sourceLocations entry.1 <;>
        simp [hv, hc]
    · simp [hv]

/-- C1 witness: a fresh name with the replica Valid and a clean remote
table is recorded and its add-notification sent. -/
theorem addSource_spec_witness :
    (addSource ("a", "u") (RegistryState.mk [] ReplicaState.valid [] [] 0)).hostedSources
      = [("a", "u")] ∧
    (addSource ("a", "u") (RegistryState.mk [] ReplicaState.valid [] [] 0)).sent
      = [Packet.addSourcePacket ("a", "u")] := by
  have h := (addSource_spec ("a", "u")
    (RegistryState.mk [] ReplicaState.valid [] [] 0)).2 (by decide)
  refine ⟨?_, ?_⟩
  · rw [h.1]; decide
  · rw [h.2.1]; decide

/-- C2 On every transition of the registry replica's state into Valid,
reconciliation runs once over the hosted-sources table: the table keeps
exactly the entries whose name the remote table does not contain; a
pending source whose name the remote table maps to a different endpoint
is dropped with no notification; each pending source whose name is
absent from the remote table is kept and gets exactly one
add-notification — with N still-unclaimed hosted sources, exactly N
add-notifications are sent. -/
theorem pushToRegistry_on_valid (st : RegistryState) :
    (stateChangedTransition ReplicaState.valid st).hostedSources =
      st.hostedSources.filter (fun e => !(containsKey st.sourceLocations e.1)) ∧
    (stateChangedTransition ReplicaState.valid st).sent = st.sent ++
      (st.hostedSources.filter
        (fun e => !(containsKey st.sourceLocations e.1))).map Packet.addSourcePacket ∧
    (stateChangedTransition ReplicaState.valid st).sent.length = st.sent.length +
      (st.hostedSources.filter
        (fun e => !(containsKey st.sourceLocations e.1))).length ∧
    (∀ n u u', (n, u) ∈ st.hostedSources →
      lookupKey st.sourceLocations n = some u' → u' ≠ u →
      (n, u) ∉ (stateChangedTransition ReplicaState.valid st).hostedSources ∧
      Packet.addSourcePacket (n, u) ∉
        ((stateChangedTransition ReplicaState.valid st).sent).drop st.sent.length) ∧
    (stateChangedTransition ReplicaState.valid st).warnings = st.warnings +
      (st.hostedSources.filter
        (fun e => containsKey st.sourceLocations e.1)).length ∧
    (∀ n u, (n, u) ∈ st.hostedSources → containsKey st.sourceLocations n = false →
      (n, u) ∈ (stateChangedTransition ReplicaState.valid st).hostedSources) := by
  have hmain :
      (stateChangedTransition ReplicaState.valid st).hostedSources =
        st.hostedSources.filter (fun e => !(containsKey st.sourceLocations e.1)) ∧
      (stateChangedTransition ReplicaState.valid st).sent = st.sent ++
        (st.hostedSources.filter
          (fun e => !(containsKey st.sourceLocations e.1))).map Packet.addSourcePacket ∧
      (stateChangedTransition ReplicaState.valid st).warnings = st.warnings +
        (st.hostedSources.filter
          (fun e => containsKey st.sourceLocations e.1)).length := by
    unfold stateChangedTransition pushToRegistryIfNeeded
    by_cases he : st.hostedSources = []
    · simp [he]
    · simp only [ne_eq, not_true_eq_false, if_false, he, if_neg he]
      rw [pushLoop_eq]
      simp
  refine ⟨hmain.1, hmain.2.1, ?_, ?_, hmain.2.2, ?_⟩
  · rw [hmain.2.1]; simp
  · intro n u u' hmem hlook hne
    have hcont : containsKey st.sourceLocations n = true := lookupKey_some_contains hlook
    constructor
    · rw [hmain.1]
      intro hmemf
      have := List.of_mem_filter hmemf
      simp [hcont] at this
    · rw [hmain.2.1, List.drop_left]
      intro hmemp
      rcases List.mem_map.mp hmemp with ⟨e, hef, hee⟩
      cases Packet.addSourcePacket.inj hee
      have := List.of_mem_filter hef
      simp [hcont] at this
  · intro n u hmem hcont
    rw [hmain.1]
    exact List.mem_filter.mpr ⟨hmem, by simp [hcont]⟩

/-- C2 witness: with one hosted source claimed remotely by a different
endpoint and one unclaimed, the transition into Valid drops the first
without a notification and re-announces exactly the second. -/
theorem pushToRegistry_on_valid_witness :
    (("a", "u") ∉ (stateChangedTransition ReplicaState.valid
        (RegistryState.mk [("a", "u"), ("b", "v")] ReplicaState.suspect [("a", "w")] [] 0)).hostedSources) ∧
    (stateChangedTransition ReplicaState.valid
        (RegistryState.mk [("a", "u"), ("b", "v")] ReplicaState.suspect [("a", "w")] [] 0)).sent
      = [Packet.addSourcePacket ("b", "v")] := by
  have h := pushToRegistry_on_valid
    (RegistryState.mk [("a", "u"), ("b", "v")] ReplicaState.suspect [("a", "w")] [] 0)
  refine ⟨(h.2.2.2.1 "a" "u" "w" (by decide) (by decide) (by decide)).1, ?_⟩
  rw [h.2.1]; decide

/-- C4 In every capability map generated by
`RepCodeGenerator::generateSourceAPI`, `propertyIndexFromSignal(i)` for
`0 <= i <` (number of non-constant properties, i.e. change-notification
signals) returns the source property index (`sourcePropertyIndex`
content) of the property that the i-th change signal notifies — the
i-th non-constant property in declared order — and for every other
signal index (the declared signals occupy the following indices, and
out-of-range indices) it returns `-1`. -/
theorem propertyIndexFromSignal_spec (ac : ASTClass) (t : GenTables) (i : Int) :
    genPropertyIndexFromSignal ac t i =
      if 0 ≤ i ∧ i < ((changedIndices ac).length : Int)
      then genSourcePropertyIndex ac t (((changedIndices ac).getD i.toNat 0 : Nat) : Int)
      else -1 := by
  unfold genPropertyIndexFromSignal
  have hlen : (propertyChangeIndex ac).length = (changedIndices ac).length := by
    simp [propertyChangeIndex]
  by_cases hc : 0 ≤ i ∧ i < ((changedIndices ac).length : Int)
  · rw [if_pos (by rw [hlen]; exact hc), if_pos hc]
    have hn : i.toNat < (changedIndices ac).length := by omega
    have hk : (changedIndices ac).getD i.toNat 0 < propCount ac := by
      rw [List.getD_eq_getElem _ _ hn]
      exact changedIndices_lt ac _ (List.getElem_mem hn)
    have h1 : (propertyChangeIndex ac).getD i.toNat 0 =
        (changedIndices ac).getD i.toNat 0 + 1 := by
      unfold propertyChangeIndex
      rw [List.getD_eq_getElem _ _ (by simpa using hn), List.getD_eq_getElem _ _ hn,
        List.getElem_map]
    have h2 : (mPropertiesTable ac t).getD ((changedIndices ac).getD i.toNat 0 + 1) 0 =
        t.propIdx ((changedIndices ac).getD i.toNat 0) := by
      unfold mPropertiesTable
      rw [List.getD_cons_succ, List.getD_eq_getElem _ _ (by simpa using hk),
        List.getElem_map, List.getElem_range]
    have h3 : genSourcePropertyIndex ac t
        (((changedIndices ac).getD i.toNat 0 : Nat) : Int) =
        t.propIdx ((changedIndices ac).getD i.toNat 0) := by
      unfold genSourcePropertyIndex
      rw [if_neg (by push_neg; exact ⟨by positivity, by exact_mod_cast hk⟩)]
      simp
    rw [h1, h2, h3]
  · rw [if_neg (by rw [hlen]; exact hc), if_neg hc]

/-- C8 Every index-taking accessor of a generated `SourceApiMap`
(`sourceEnumIndex`, `sourcePropertyIndex`, `sourceSignalIndex`,
`sourceMethodIndex`, `signalParameterCount`, `signalParameterType`,
`methodParameterCount`, `methodParameterType`) returns `-1` for every
negative or out-of-range index instead of reading outside its
fixed-size tables, for every generated class, table contents and
integer argument. -/
theorem sourceApi_out_of_range (ac : ASTClass) (t : GenTables) (i j : Int) :
    ((i < 0 ∨ (enumCount ac : Int) ≤ i) → genSourceEnumIndex ac t i = -1) ∧
    ((i < 0 ∨ (propCount ac : Int) ≤ i) → genSourcePropertyIndex ac t i = -1) ∧
    ((i < 0 ∨ (signalTotal ac : Int) ≤ i) → genSourceSignalIndex ac t i = -1) ∧
    ((i < 0 ∨ (methodTotal ac : Int) ≤ i) → genSourceMethodIndex ac t i = -1) ∧
    ((i < 0 ∨ (signalTotal ac : Int) ≤ i) → genSignalParameterCount ac t i = -1) ∧
    ((i < 0 ∨ (signalTotal ac : Int) ≤ i ∨ j < 0 ∨ t.sigArgCount i.toNat ≤ j) →
      genSignalParameterType ac t i j = -1) ∧
    ((i < 0 ∨ (methodTotal ac : Int) ≤ i) → genMethodParameterCount ac t i = -1) ∧
    ((i < 0 ∨ (methodTotal ac : Int) ≤ i ∨ j < 0 ∨ t.methArgCount i.toNat ≤ j) →
      genMethodParameterType ac t i j = -1) := by
  refine ⟨?_, ?_, ?_, ?_, ?_, ?_, ?_, ?_⟩ <;> intro h
  · rw [genSourceEnumIndex, if_pos h]
  · rw [genSourcePropertyIndex, if_pos h]
  · rw [genSourceSignalIndex, if_pos h]
  · rw [genSourceMethodIndex, if_pos h]
  · rw [genSignalParameterCount]
    by_cases h0 : signalTotal ac = 0
    · rw [if_pos h0]
    · rw [if_neg h0, if_pos h]
  · rw [genSignalParameterType]
    by_cases h0 : signalTotal ac = 0
    · rw [if_pos h0]
    · rw [if_neg h0, if_pos h]
  · rw [genMethodParameterCount]
    by_cases h0 : methodTotal ac = 0
    · rw [if_pos h0]
    · rw [if_neg h0, if_pos h]
  · rw [genMethodParameterType]
    by_cases h0 : methodTotal ac = 0
    · rw [if_pos h0]
    · rw [if_neg h0, if_pos h]

/-- C8 witness: on a one-property, one-signal, one-slot class with
all-zero tables, index `-1` (and parameter index `-1`) yields `-1`
from every accessor. -/
theorem sourceApi_out_of_range_witness :
    genSourceEnumIndex
        (ASTClass.mk [67] [] [ASTProperty.mk [112] [105] Modifier.readWrite false]
          [ASTFunction.mk [115] [118] []] [ASTFunction.mk [109] [118] []] [] [])
        (GenTables.mk (fun _ => 0) (fun _ => 0) (fun _ => 0) (fun _ => 0)
          (fun _ => 0) (fun _ _ => 0) (fun _ => 0) (fun _ _ => 0)) (-1) = -1 ∧
    genSignalParameterType
        (ASTClass.mk [67] [] [ASTProperty.mk [112] [105] Modifier.readWrite false]
          [ASTFunction.mk [115] [118] []] [ASTFunction.mk [109] [118] []] [] [])
        (GenTables.mk (fun _ => 0) (fun _ => 0) (fun _ => 0) (fun _ => 0)
          (fun _ => 0) (fun _ _ => 0) (fun _ => 0) (fun _ _ => 0)) (-1) (-1) = -1 := by
  have h := sourceApi_out_of_range
    (ASTClass.mk [67] [] [ASTProperty.mk [112] [105] Modifier.readWrite false]
      [ASTFunction.mk [115] [118] []] [ASTFunction.mk [109] [118] []] [] [])
    (GenTables.mk (fun _ => 0) (fun _ => 0) (fun _ => 0) (fun _ => 0)
      (fun _ => 0) (fun _ _ => 0) (fun _ => 0) (fun _ _ => 0)) (-1) (-1)
  exact ⟨h.1 (Or.inl (by decide)), h.2.2.2.2.2.1 (Or.inl (by decide))⟩

/-- C6 `RepCodeGenerator::classSignature` is deterministic: it is a
pure function of the class name, local enums, properties, signals,
slots and the global enum/POD table — equal inputs give bit-equal
digests whatever run computes them, and no other field of the class
description influences the result. -/
theorem classSignature_deterministic (tbl : SpecialTypes) (a b : ASTClass)
    (h1 : a.name = b.name) (h2 : a.enums = b.enums)
    (h3 : a.properties = b.properties) (h4 : a.signalsList = b.signalsList)
    (h5 : a.slotsList = b.slotsList) :
    classSignature tbl a = classSignature tbl b := by
  unfold classSignature classSignatureData
  rw [h1, h2, h3, h4, h5]

/-- C6 witness: two descriptions agreeing on the hashed fields but
differing in model metadata and subclass indices hash identically. -/
theorem classSignature_deterministic_witness :
    classSignature [] (ASTClass.mk [67] [] [] [] [] [1, 2] [3]) =
      classSignature [] (ASTClass.mk [67] [] [] [] [] [9] []) :=
  classSignature_deterministic [] _ _ rfl rfl rfl rfl rfl

/-- C5 counterexample: changing the one property's type from `"N::T"`
to `"T"` (everything else equal) does not change the digest —
`typeData` strips the `"::"`-qualified scope, so both types hash to the
same bytes and `classSignature` returns bit-equal digests. -/
theorem classSignature_type_collision :
    (ASTClass.mk [67] []
        [ASTProperty.mk [112] [78, 58, 58, 84] Modifier.readOnly false] [] [] [] []).properties ≠
      (ASTClass.mk [67] []
        [ASTProperty.mk [112] [84] Modifier.readOnly false] [] [] [] []).properties ∧
    classSignature [] (ASTClass.mk [67] []
        [ASTProperty.mk [112] [78, 58, 58, 84] Modifier.readOnly false] [] [] [] []) =
      classSignature [] (ASTClass.mk [67] []
        [ASTProperty.mk [112] [84] Modifier.readOnly false] [] [] [] []) := by
  refine ⟨by decide, ?_⟩
  unfold classSignature
  exact congrArg toHexBytes (congrArg sha1 (by decide))

/-- C5 (amended) For every class description, changing one property's
type (all other names, types, modifiers, signals, slots, and enums held
equal) changes the byte stream hashed by
`RepCodeGenerator::classSignature` if and only if the two types' type
data differ — the hashed input always includes each property's name,
type data, and modifier, but types whose type data coincide (such as a
`"::"`-scoped name and its unscoped form) leave the input and hence the
digest unchanged; and equal type data always gives a bit-equal
digest. -/
theorem classSignature_type_dependence (tbl : SpecialTypes) (nm : List Nat)
    (ens : List ASTEnum) (pre post : List ASTProperty) (pn ty ty' : List Nat)
    (m : Modifier) (ip : Bool) (sgs sls : List ASTFunction) (mm sci : List Nat) :
    (classSignatureData tbl
        (ASTClass.mk nm ens (pre ++ ASTProperty.mk pn ty m ip :: post) sgs sls mm sci) =
      classSignatureData tbl
        (ASTClass.mk nm ens (pre ++ ASTProperty.mk pn ty' m ip :: post) sgs sls mm sci)
     ↔ typeData (localTypesFor tbl ens) ty = typeData (localTypesFor tbl ens) ty') ∧
    (typeData (localTypesFor tbl ens) ty = typeData (localTypesFor tbl ens) ty' →
      classSignature tbl
        (ASTClass.mk nm ens (pre ++ ASTProperty.mk pn ty m ip :: post) sgs sls mm sci) =
      classSignature tbl
        (ASTClass.mk nm ens (pre ++ ASTProperty.mk pn ty' m ip :: post) sgs sls mm sci)) := by
  have hiff : classSignatureData tbl
      (ASTClass.mk nm ens (pre ++ ASTProperty.mk pn ty m ip :: post) sgs sls mm sci) =
      classSignatureData tbl
        (ASTClass.mk nm ens (pre ++ ASTProperty.mk pn ty' m ip :: post) sgs sls mm sci)
      ↔ typeData (localTypesFor tbl ens) ty = typeData (localTypesFor tbl ens) ty' := by
    constructor
    · intro h
      unfold classSignatureData at h
      have hp := List.append_cancel_right (List.append_cancel_left h)
      rw [propsData_append, propsData_append] at hp
      have hc := List.append_cancel_left hp
      rw [propsData_cons, propsData_cons] at hc
      have hd := List.append_cancel_right hc
      unfold propData at hd
      exact List.append_cancel_right (List.append_cancel_left hd)
    · intro h
      unfold classSignatureData
      rw [propsData_append, propsData_append, propsData_cons, propsData_cons]
      unfold propData
      rw [h]
  exact ⟨hiff, fun h => congrArg toHexBytes (congrArg sha1 (hiff.mpr h))⟩

/-- C5 witness: on a concrete class whose property types `"N::T"` and
`"T"` share their type data, the amended theorem yields bit-equal
digests. -/
theorem classSignature_type_dependence_witness :
    classSignature []
        (ASTClass.mk [68] []
          [ASTProperty.mk [113] [78, 58, 58, 84] Modifier.readWrite false] [] [] [] []) =
      classSignature []
        (ASTClass.mk [68] []
          [ASTProperty.mk [113] [84] Modifier.readWrite false] [] [] [] []) :=
  (classSignature_type_dependence [] [68] [] [] [] [113] [78, 58, 58, 84] [84]
    Modifier.readWrite false [] [] [] []).2 (by decide)

end QtRO
